import Mathlib

/-!
Verification of the extraction dispatcher of `pydax/_extractors.py`.

The module is embedded shallowly:
* a source file's on-disk content is a `FileContent` (either readable as a
  tar archive, yielding its member list, or not);
* side effects (stdout prints, the manifest write, the extraction of the
  members into the data directory) are recorded as an explicit `Event` trace;
* each module-level extractor function is a constructor of `Extractor`,
  with its parameter count recorded by `numParams`; the dispatcher always
  calls extractors with three arguments (`callWith3`), and a call with the
  wrong arity is a `TypeError` raised before the body runs;
* `extract_data_files` mirrors the Python dispatcher line by line: the
  `mimetypes.guess_type` result is passed in as the pair
  `(ftype, fencoding)` of optional strings, dictionaries are association
  lists in insertion order, `except Exception: pass` discards the error
  value, and the final `raise RuntimeError('Filetype not supported')`
  becomes the `DispatchError.unsupported` outcome.
-/

set_option autoImplicit false

namespace Pydax

/-- One member of a tar archive as observed by `tar_extractor`:
its name, the integer code `int(member.type)`, whether `member.isreg()`
holds, and its size. -/
structure TarMember where
  name : String
  typeCode : Nat
  isReg : Bool
  size : Nat
  deriving Repr, DecidableEq

/-- One value of the manifest dictionary built by `tar_extractor`: the
member's entry type, and its size exactly when the member is a regular
file. -/
structure Entry where
  type : Nat
  size : Option Nat
  deriving Repr, DecidableEq

/-- The on-disk content of a path: either readable as a tar archive with
the given member list, or not readable as tar (`tarfile.open` raises
`tarfile.ReadError` whose message is `cause`). -/
inductive FileContent where
  | tarData (members : List TarMember)
  | other (cause : String)
  deriving Repr, DecidableEq

/-- A side effect performed by an extractor: a stdout print, the manifest
write to `file_list_file`, or the writing of members into `data_dir` by
`tar.extractall` — `members` lists the members actually written, which is
a front segment of the archive when extraction fails midway. -/
inductive Event where
  | print (s : String)
  | writeManifest (path : String) (manifest : List (String × Entry))
  | extractAll (dir : String) (members : List TarMember)
  deriving Repr, DecidableEq

/-- An error raised by an individual extractor call: a `tarfile.ReadError`
with its message, the `TypeError` raised when a one-parameter extractor is
called with three arguments, or the `OSError` (for example
`NotADirectoryError`) raised by `tar.extractall` at the named member when
the filesystem refuses to create it. -/
inductive Err where
  | readError (msg : String)
  | typeError
  | osError (member : String)
  deriving Repr, DecidableEq

/-- An error that `extract_data_files` could surface to its caller: an
individual extractor's error, were one propagated, or the final
`RuntimeError` with its message. -/
inductive DispatchError where
  | extractorError (e : Err)
  | unsupported (msg : String)
  deriving Repr, DecidableEq

/-- The five module-level extractor functions of `_extractors.py`. -/
inductive Extractor where
  | tar
  | zip
  | gzip
  | bzip2
  | lzma
  deriving Repr, DecidableEq

/-- Number of parameters in each extractor's `def`: `tar_extractor` takes
`(path, data_dir, file_list_file)`; the four stubs take only `path`. -/
def numParams : Extractor → Nat
  | .tar => 3
  | _ => 1

/-- Python dictionary assignment `m[k] = v` on an association list in
insertion order: an existing key keeps its position and gets the new
value, a new key is appended at the end. -/
def dictInsert (m : List (String × Entry)) (k : String) (v : Entry) : List (String × Entry) :=
  if m.any (fun q => q.1 == k) then m.map (fun q => if q.1 == k then (k, v) else q)
  else m ++ [(k, v)]

/-- The manifest value recorded for one member: the loop body first sets
`members[member.name] = dict of type int(member.type)` and then adds
`size` when `member.isreg()`. -/
def mkEntry (m : TarMember) : Entry :=
  ⟨m.typeCode, if m.isReg then some m.size else none⟩

/-- The `members` dictionary built by the loop over `tar.getmembers()`. -/
def buildManifest (ms : List TarMember) : List (String × Entry) :=
  ms.foldl (fun acc m => dictInsert acc m.name (mkEntry m)) []

/-- Decides whether the first character list is an initial segment of the
second (the characters of the first appear, in order, at the front of the
second). -/
def leadsList : List Char → List Char → Bool
  | [], _ => true
  | _ :: _, [] => false
  | a :: as, b :: bs => a == b && leadsList as bs

/-- Decides whether the string `pre` is an initial segment of `s`, on the
underlying character lists. -/
def strLeads (pre s : String) : Bool :=
  leadsList pre.data s.data

/-- One-by-one extraction of members, as `tar.extractall` performs it:
members are written in archive order; a member whose path lies under an
already-written regular file cannot be created — the OS refuses to use a
regular file as a directory and raises `NotADirectoryError` — and the
extraction stops there. The result is the list of members actually
written and the error of the failing member, if any. -/
def extractMembers (seen : List TarMember) : List TarMember → List TarMember × Option Err
  | [] => ([], none)
  | m :: rest =>
      if seen.any (fun m1 => m1.isReg && strLeads (m1.name ++ "/") m.name) then
        ([], some (.osError m.name))
      else
        let r := extractMembers (seen ++ [m]) rest
        (m :: r.1, r.2)

/-- The outcome of `tar.extractall(path=data_dir)` on a member list: the
members written and the error, if extraction failed midway. -/
def tarExtract (ms : List TarMember) : List TarMember × Option Err :=
  extractMembers [] ms

/-- Body of `tar_extractor`: print, open the archive (wrapping a
`tarfile.ReadError` with the path and the cause), build the manifest,
write it to `file_list_file`, then extract the members into `data_dir`.
The extraction step runs after the manifest write and can fail midway —
the members written up to that point and the manifest remain on disk and
the member's error propagates out of the extractor. -/
def tarBody (world : String → FileContent) (path data_dir file_list_file : String) :
    List Event × Option Err :=
  match world path with
  | .other cause =>
      ([.print "1: tar"],
       some (.readError ("Failed to unarchive \"" ++ path ++ "\"\ncaused by:\n" ++ cause)))
  | .tarData ms =>
      ([.print "1: tar",
        .writeManifest file_list_file (buildManifest ms),
        .extractAll data_dir (tarExtract ms).1],
       (tarExtract ms).2)

/-- A call `extractor(path, data_dir, file_list_file)` as the dispatcher
performs it: only `tar_extractor` declares three parameters, so for every
other extractor the call raises `TypeError` before any of the body (even
its print) runs. -/
def callWith3 (world : String → FileContent) (e : Extractor)
    (path data_dir file_list_file : String) : List Event × Option Err :=
  match e with
  | .tar => tarBody world path data_dir file_list_file
  | _ => ([], some .typeError)

/-- The `archives` dictionary (file type to extractor), in source order. -/
def archives : List (String × Extractor) :=
  [("application/x-tar", .tar), ("application/zip", .zip)]

/-- The `compressions` dictionary (file encoding to extractor), in source
order. -/
def compressions : List (String × Extractor) :=
  [("gzip", .gzip), ("bzip2", .bzip2), ("xz", .lzma)]

/-- The merged dictionary built by `extract_data_files`; the key sets of
the two parts are disjoint, so the merge is concatenation in insertion
order. -/
def extractor_map : List (String × Extractor) :=
  archives ++ compressions

/-- The values of `extractor_map` in insertion order, as iterated by the
fallback loop. -/
def registryValues : List Extractor :=
  extractor_map.map Prod.snd

/-- Python `m.get(k)` for an optional key: `None` is never a key. -/
def mapGet (m : List (String × Extractor)) (k : Option String) : Option Extractor :=
  match k with
  | none => none
  | some s => (m.find? (fun q => q.1 == s)).map Prod.snd

/-- Membership test `k in extractor_map.keys()` for an optional key. -/
def isKey (k : Option String) : Bool :=
  (mapGet extractor_map k).isSome

/-- The guard `any(key in extractor_map.keys() for key in (ftype, fencoding))`. -/
def anyKey (ftype fencoding : Option String) : Bool :=
  isKey ftype || isKey fencoding

/-- The hinted extractor `extractor_map.get(ftype, extractor_map.get(fencoding))`. -/
def hintedExtractor (ftype fencoding : Option String) : Option Extractor :=
  match mapGet extractor_map ftype with
  | some e => some e
  | none => mapGet extractor_map fencoding

/-- The result of one dispatch call: the extractors attempted in order,
the concatenated side-effect trace, and the outcome (`none` is success). -/
structure DispatchResult where
  attempts : List Extractor
  events : List Event
  error : Option DispatchError
  deriving Repr, DecidableEq

/-- The fallback loop of `extract_data_files`: try each extractor in
order, swallow its error and continue, return at the first success, and
raise `RuntimeError('Filetype not supported')` after the loop. -/
def sweep (world : String → FileContent) (path data_dir file_list_file : String) :
    List Extractor → DispatchResult
  | [] => ⟨[], [], some (.unsupported "Filetype not supported")⟩
  | e :: rest =>
      let c := callWith3 world e path data_dir file_list_file
      if c.2 = none then ⟨[e], c.1, none⟩
      else
        let s := sweep world path data_dir file_list_file rest
        ⟨e :: s.attempts, c.1 ++ s.events, s.error⟩

/-- The dispatcher `extract_data_files(path, data_dir, file_list_file)`.
The pair `(ftype, fencoding)` stands for `mimetypes.guess_type(path)`.
If either component is a registered key, the hinted extractor is tried
first and its error swallowed; then the loop over `extractor_map.values()`
runs. When the guard holds, `hintedExtractor` is necessarily `some`; the
`none` branch is unreachable and behaves like the loop alone. -/
def extract_data_files (world : String → FileContent) (ftype fencoding : Option String)
    (path data_dir file_list_file : String) : DispatchResult :=
  if anyKey ftype fencoding then
    match hintedExtractor ftype fencoding with
    | some ex =>
        let c := callWith3 world ex path data_dir file_list_file
        if c.2 = none then ⟨[ex], c.1, none⟩
        else
          let s := sweep world path data_dir file_list_file registryValues
          ⟨ex :: s.attempts, c.1 ++ s.events, s.error⟩
    | none => sweep world path data_dir file_list_file registryValues
  else sweep world path data_dir file_list_file registryValues

/-- Index of the first extractor in the list whose three-argument call
completes without error, if any. -/
def firstIdx (world : String → FileContent) (path data_dir file_list_file : String) :
    List Extractor → Option Nat
  | [] => none
  | e :: rest =>
      if (callWith3 world e path data_dir file_list_file).2 = none then some 0
      else (firstIdx world path data_dir file_list_file rest).map (· + 1)

/-- Spec-side description of the fallback sweep (spec section 4.3 step 3):
sweeping `l` in order attempts every extractor up to and including the
first one that completes without error and succeeds there; if none
succeeds, every extractor of `l` is attempted and the dispatch fails with
the unsupported-format error. -/
def sweepSpecHolds (world : String → FileContent) (path data_dir file_list_file : String)
    (l attempted : List Extractor) (err : Option DispatchError) : Prop :=
  match firstIdx world path data_dir file_list_file l with
  | some k => attempted = l.take (k + 1) ∧ err = none
  | none => attempted = l ∧ err = some (.unsupported "Filetype not supported")

/-- The write effects of a trace: everything except stdout prints. -/
def writesOf (evs : List Event) : List Event :=
  evs.filter (fun e => match e with
    | .print _ => false
    | _ => true)

/-- The manifest payloads written during a trace, ignoring the manifest
path they were written to. -/
def manifestsOf (evs : List Event) : List (List (String × Entry)) :=
  evs.filterMap (fun e => match e with
    | .writeManifest _ m => some m
    | _ => none)

theorem registryValues_eq :
    registryValues = [.tar, .zip, .gzip, .bzip2, .lzma] := rfl

theorem anyKey_eq_isSome_hinted (ft fe : Option String) :
    anyKey ft fe = (hintedExtractor ft fe).isSome := by
  unfold anyKey isKey hintedExtractor
  cases hft : mapGet extractor_map ft <;> cases hfe : mapGet extractor_map fe <;> simp

theorem anyKey_of_hinted (ft fe : Option String) (ex : Extractor)
    (hex : hintedExtractor ft fe = some ex) : anyKey ft fe = true := by
  rw [anyKey_eq_isSome_hinted, hex]
  rfl

theorem hinted_of_anyKey (ft fe : Option String) (hk : anyKey ft fe = true) :
    ∃ ex, hintedExtractor ft fe = some ex := by
  rw [anyKey_eq_isSome_hinted] at hk
  exact Option.isSome_iff_exists.mp hk

theorem call_stub (world : String → FileContent) (e : Extractor) (p d f : String)
    (he : e ≠ Extractor.tar) : callWith3 world e p d f = ([], some .typeError) := by
  cases e <;> simp_all [callWith3]

theorem call_tar_tarData (world : String → FileContent) (p d f : String)
    (ms : List TarMember) (hw : world p = .tarData ms) :
    callWith3 world .tar p d f =
      ([.print "1: tar", .writeManifest f (buildManifest ms),
        .extractAll d (tarExtract ms).1], (tarExtract ms).2) := by
  simp [callWith3, tarBody, hw]

theorem call_tar_other (world : String → FileContent) (p d f : String)
    (c : String) (hw : world p = .other c) :
    callWith3 world .tar p d f =
      ([.print "1: tar"],
       some (.readError ("Failed to unarchive \"" ++ p ++ "\"\ncaused by:\n" ++ c))) := by
  simp [callWith3, tarBody, hw]

theorem sweep_reg_of_tar_ok (world : String → FileContent) (p d f : String)
    (hok : (callWith3 world .tar p d f).2 = none) :
    sweep world p d f registryValues
      = ⟨[.tar], (callWith3 world .tar p d f).1, none⟩ := by
  rw [registryValues_eq]
  simp [sweep, hok]

theorem sweep_reg_of_tar_fail (world : String → FileContent) (p d f : String)
    (er : Err) (her : (callWith3 world .tar p d f).2 = some er) :
    sweep world p d f registryValues
      = ⟨[.tar, .zip, .gzip, .bzip2, .lzma], (callWith3 world .tar p d f).1,
         some (.unsupported "Filetype not supported")⟩ := by
  have hz := call_stub world .zip p d f (by decide)
  have hg := call_stub world .gzip p d f (by decide)
  have hb := call_stub world .bzip2 p d f (by decide)
  have hl := call_stub world .lzma p d f (by decide)
  rw [registryValues_eq]
  simp [sweep, her, hz, hg, hb, hl]

theorem sweep_attempts_ok (world : String → FileContent) (p d f : String)
    (hok : (callWith3 world .tar p d f).2 = none) :
    (sweep world p d f registryValues).attempts = [Extractor.tar] := by
  rw [sweep_reg_of_tar_ok world p d f hok]

theorem sweep_attempts_fail (world : String → FileContent) (p d f : String)
    (er : Err) (her : (callWith3 world .tar p d f).2 = some er) :
    (sweep world p d f registryValues).attempts
      = [Extractor.tar, Extractor.zip, Extractor.gzip, Extractor.bzip2, Extractor.lzma] := by
  rw [sweep_reg_of_tar_fail world p d f er her]

theorem sweep_events_ok (world : String → FileContent) (p d f : String)
    (hok : (callWith3 world .tar p d f).2 = none) :
    (sweep world p d f registryValues).events = (callWith3 world .tar p d f).1 := by
  rw [sweep_reg_of_tar_ok world p d f hok]

theorem sweep_events_fail (world : String → FileContent) (p d f : String)
    (er : Err) (her : (callWith3 world .tar p d f).2 = some er) :
    (sweep world p d f registryValues).events = (callWith3 world .tar p d f).1 := by
  rw [sweep_reg_of_tar_fail world p d f er her]

theorem sweep_error_ok (world : String → FileContent) (p d f : String)
    (hok : (callWith3 world .tar p d f).2 = none) :
    (sweep world p d f registryValues).error = none := by
  rw [sweep_reg_of_tar_ok world p d f hok]

theorem sweep_error_fail (world : String → FileContent) (p d f : String)
    (er : Err) (her : (callWith3 world .tar p d f).2 = some er) :
    (sweep world p d f registryValues).error
      = some (.unsupported "Filetype not supported") := by
  rw [sweep_reg_of_tar_fail world p d f er her]

theorem extract_of_hint_success (world : String → FileContent) (ft fe : Option String)
    (p d f : String) (ex : Extractor) (hex : hintedExtractor ft fe = some ex)
    (hc : (callWith3 world ex p d f).2 = none) :
    extract_data_files world ft fe p d f = ⟨[ex], (callWith3 world ex p d f).1, none⟩ := by
  unfold extract_data_files
  rw [anyKey_of_hinted ft fe ex hex]
  simp [hex, hc]

theorem extract_of_hint_failure (world : String → FileContent) (ft fe : Option String)
    (p d f : String) (ex : Extractor) (er : Err) (hex : hintedExtractor ft fe = some ex)
    (hc : (callWith3 world ex p d f).2 = some er) :
    extract_data_files world ft fe p d f =
      ⟨ex :: (sweep world p d f registryValues).attempts,
       (callWith3 world ex p d f).1 ++ (sweep world p d f registryValues).events,
       (sweep world p d f registryValues).error⟩ := by
  unfold extract_data_files
  rw [anyKey_of_hinted ft fe ex hex]
  simp [hex, hc]

theorem extract_of_no_key (world : String → FileContent) (ft fe : Option String)
    (p d f : String) (hk : anyKey ft fe = false) :
    extract_data_files world ft fe p d f = sweep world p d f registryValues := by
  unfold extract_data_files
  rw [hk]
  simp

theorem mapGet_archives_sub (ft : Option String) (a : Extractor)
    (h : mapGet archives ft = some a) : mapGet extractor_map ft = some a := by
  cases ft with
  | none => simp [mapGet] at h
  | some s =>
      simp only [mapGet, archives, extractor_map, compressions, List.cons_append,
        List.nil_append] at h ⊢
      cases h1 : (("application/x-tar" : String) == s) <;>
        cases h2 : (("application/zip" : String) == s) <;>
          simp [List.find?, h1, h2] at h ⊢ <;> exact h

theorem firstIdx_reg_of_tar_ok (world : String → FileContent) (p d f : String)
    (hok : (callWith3 world .tar p d f).2 = none) :
    firstIdx world p d f registryValues = some 0 := by
  rw [registryValues_eq]
  simp [firstIdx, hok]

theorem firstIdx_reg_of_tar_fail (world : String → FileContent) (p d f : String)
    (er : Err) (her : (callWith3 world .tar p d f).2 = some er) :
    firstIdx world p d f registryValues = none := by
  have hz := call_stub world .zip p d f (by decide)
  have hg := call_stub world .gzip p d f (by decide)
  have hb := call_stub world .bzip2 p d f (by decide)
  have hl := call_stub world .lzma p d f (by decide)
  rw [registryValues_eq]
  simp [firstIdx, her, hz, hg, hb, hl]

theorem sweep_matches_spec (world : String → FileContent) (p d f : String) :
    sweepSpecHolds world p d f registryValues
      (sweep world p d f registryValues).attempts
      (sweep world p d f registryValues).error := by
  cases htc : (callWith3 world .tar p d f).2 with
  | none =>
      rw [sweep_reg_of_tar_ok world p d f htc]
      unfold sweepSpecHolds
      rw [firstIdx_reg_of_tar_ok world p d f htc]
      simp [registryValues_eq]
  | some er =>
      rw [sweep_reg_of_tar_fail world p d f er htc]
      unfold sweepSpecHolds
      rw [firstIdx_reg_of_tar_fail world p d f er htc]
      simp [registryValues_eq]

theorem call_fails_of_tar_fail (world : String → FileContent) (p d f : String)
    (er : Err) (her : (callWith3 world .tar p d f).2 = some er) (e : Extractor) :
    ∃ er2, (callWith3 world e p d f).2 = some er2 := by
  cases e with
  | tar => exact ⟨er, her⟩
  | zip => exact ⟨.typeError, by simp [callWith3]⟩
  | gzip => exact ⟨.typeError, by simp [callWith3]⟩
  | bzip2 => exact ⟨.typeError, by simp [callWith3]⟩
  | lzma => exact ⟨.typeError, by simp [callWith3]⟩

theorem extract_error_none_of_tar_ok (world : String → FileContent) (ft fe : Option String)
    (p d f : String) (hok : (callWith3 world .tar p d f).2 = none) :
    (extract_data_files world ft fe p d f).error = none := by
  cases hk : anyKey ft fe with
  | false =>
      rw [extract_of_no_key world ft fe p d f hk, sweep_reg_of_tar_ok world p d f hok]
  | true =>
      obtain ⟨ex, hex⟩ := hinted_of_anyKey ft fe hk
      cases hc : (callWith3 world ex p d f).2 with
      | none => rw [extract_of_hint_success world ft fe p d f ex hex hc]
      | some er =>
          rw [extract_of_hint_failure world ft fe p d f ex er hex hc]
          simp [sweep_reg_of_tar_ok world p d f hok]

theorem extract_error_of_tar_fail (world : String → FileContent) (ft fe : Option String)
    (p d f : String) (er : Err) (her : (callWith3 world .tar p d f).2 = some er) :
    (extract_data_files world ft fe p d f).error
      = some (.unsupported "Filetype not supported") := by
  cases hk : anyKey ft fe with
  | false =>
      rw [extract_of_no_key world ft fe p d f hk, sweep_reg_of_tar_fail world p d f er her]
  | true =>
      obtain ⟨ex, hex⟩ := hinted_of_anyKey ft fe hk
      obtain ⟨er2, hc⟩ := call_fails_of_tar_fail world p d f er her ex
      rw [extract_of_hint_failure world ft fe p d f ex er2 hex hc]
      simp [sweep_reg_of_tar_fail world p d f er her]

theorem error_none_or_unsupported (world : String → FileContent) (ft fe : Option String)
    (p d f : String) :
    (extract_data_files world ft fe p d f).error = none
  ∨ (extract_data_files world ft fe p d f).error
      = some (.unsupported "Filetype not supported") := by
  cases htc : (callWith3 world .tar p d f).2 with
  | none => left; exact extract_error_none_of_tar_ok world ft fe p d f htc
  | some er => right; exact extract_error_of_tar_fail world ft fe p d f er htc

theorem extract_error_other (world : String → FileContent) (ft fe : Option String)
    (p d f : String) (c : String) (hw : world p = .other c) :
    (extract_data_files world ft fe p d f).error
      = some (.unsupported "Filetype not supported") :=
  extract_error_of_tar_fail world ft fe p d f
    (.readError ("Failed to unarchive \"" ++ p ++ "\"\ncaused by:\n" ++ c))
    (by rw [call_tar_other world p d f c hw])

/-- C1: when the guessed primary type or secondary encoding is a key of the
merged extractor registry (equivalently, the hinted lookup yields `some ex`),
the hinted phase attempts exactly the one extractor `ex`, preferring the
primary-type match — which is the archive match whenever the primary type is
an `archives` key — over the encoding match, and if that single attempt
raises no error, `extract_data_files` returns successfully with only that
attempt, never touching any other extractor. -/
theorem C1_hinted_single_attempt (world : String → FileContent) (ft fe : Option String)
    (p d f : String) (ex : Extractor) (hex : hintedExtractor ft fe = some ex) :
    anyKey ft fe = true
  ∧ (∀ a, mapGet extractor_map ft = some a → ex = a)
  ∧ (∀ a, mapGet archives ft = some a → ex = a)
  ∧ ((callWith3 world ex p d f).2 = none →
      extract_data_files world ft fe p d f
        = ⟨[ex], (callWith3 world ex p d f).1, none⟩) := by
  refine ⟨anyKey_of_hinted ft fe ex hex, ?_, ?_, ?_⟩
  · intro a ha
    unfold hintedExtractor at hex
    rw [ha] at hex
    simp at hex
    exact hex.symm
  · intro a ha
    have ha2 := mapGet_archives_sub ft a ha
    unfold hintedExtractor at hex
    rw [ha2] at hex
    simp at hex
    exact hex.symm
  · intro hc
    exact extract_of_hint_success world ft fe p d f ex hex hc

/-- Witness for C1 at a concrete input: a `.tar.gz`-style hint where both
the primary type and the encoding are registry keys; the archive extractor
is chosen and succeeds in one attempt. -/
theorem C1_hinted_single_attempt_witness :
    hintedExtractor (some "application/x-tar") (some "gzip") = some Extractor.tar
  ∧ extract_data_files (fun _ => FileContent.tarData []) (some "application/x-tar")
      (some "gzip") "a.tar.gz" "d" "f"
      = ⟨[Extractor.tar],
         [Event.print "1: tar", Event.writeManifest "f" [], Event.extractAll "d" []],
         none⟩ :=
  ⟨by decide,
   ((C1_hinted_single_attempt (fun _ => FileContent.tarData []) (some "application/x-tar")
      (some "gzip") "a.tar.gz" "d" "f" Extractor.tar (by decide)).2.2.2
      (by decide)).trans (by decide)⟩

/-- C2: when the hinted attempt failed, or when neither the guessed type
nor the guessed encoding is registered, the dispatcher performs the
fallback sweep over every registered extractor in registry order (all
archive extractors in registration order, then all compression extractors
in theirs), stopping at the first call that raises no error and failing
with the unsupported-format error only after all of them failed. -/
theorem C2_fallback_sweep (world : String → FileContent) (ft fe : Option String)
    (p d f : String) :
    (anyKey ft fe = false →
      sweepSpecHolds world p d f registryValues
        (extract_data_files world ft fe p d f).attempts
        (extract_data_files world ft fe p d f).error)
  ∧ (∀ ex er, hintedExtractor ft fe = some ex →
      (callWith3 world ex p d f).2 = some er →
      (extract_data_files world ft fe p d f).attempts.head? = some ex
      ∧ sweepSpecHolds world p d f registryValues
          ((extract_data_files world ft fe p d f).attempts.drop 1)
          (extract_data_files world ft fe p d f).error)
  ∧ registryValues = archives.map Prod.snd ++ compressions.map Prod.snd := by
  refine ⟨?_, ?_, rfl⟩
  · intro hk
    rw [extract_of_no_key world ft fe p d f hk]
    exact sweep_matches_spec world p d f
  · intro ex er hex hc
    rw [extract_of_hint_failure world ft fe p d f ex er hex hc]
    exact ⟨rfl, sweep_matches_spec world p d f⟩

/-- Witness for C2 at a concrete input: no hint is registered and no
extractor succeeds, so the sweep attempts all five extractors in registry
order and the dispatch fails with the unsupported-format error. -/
theorem C2_fallback_sweep_witness :
    anyKey none none = false
  ∧ sweepSpecHolds (fun _ => FileContent.other "junk") "p" "d" "f" registryValues
      (extract_data_files (fun _ => FileContent.other "junk") none none "p" "d" "f").attempts
      (extract_data_files (fun _ => FileContent.other "junk") none none "p" "d" "f").error :=
  ⟨rfl, (C2_fallback_sweep (fun _ => FileContent.other "junk") none none "p" "d" "f").1 rfl⟩

/-- C3 counterexample: the terminal error is the constant
`RuntimeError('Filetype not supported')`; two extractions of files at
distinct paths fail with literally the same error value, so the error
cannot carry the source file's path. -/
theorem C3_counterexample :
    (extract_data_files (fun _ => FileContent.other "junk") none none
        "alpha.qqq" "d" "f").error
      = some (.unsupported "Filetype not supported")
  ∧ (extract_data_files (fun _ => FileContent.other "junk") none none
        "beta.qqq" "d" "f").error
      = some (.unsupported "Filetype not supported")
  ∧ "alpha.qqq" ≠ "beta.qqq" := by decide

/-- C3 amended: when every registered extractor's attempt raises an error,
`extract_data_files` fails with a single `RuntimeError` whose message is
the constant string `Filetype not supported` — it does not carry the
source file's path — and this constant-message error is the only error
the dispatcher ever surfaces to its caller. -/
theorem C3_unsupported_error (world : String → FileContent) (ft fe : Option String)
    (p d f : String) :
    ((extract_data_files world ft fe p d f).error = none
      ∨ (extract_data_files world ft fe p d f).error
          = some (.unsupported "Filetype not supported"))
  ∧ (∀ cause, world p = .other cause →
      (extract_data_files world ft fe p d f).error
        = some (.unsupported "Filetype not supported")) :=
  ⟨error_none_or_unsupported world ft fe p d f,
   fun cause hw => extract_error_other world ft fe p d f cause hw⟩

/-- Witness for C3 (amended) at a concrete input: an undecodable file
yields exactly the constant unsupported-format error. -/
theorem C3_unsupported_error_witness :
    (fun (_ : String) => FileContent.other "noise") "x.bin" = FileContent.other "noise"
  ∧ (extract_data_files (fun _ => FileContent.other "noise") none none
        "x.bin" "d" "f").error
      = some (.unsupported "Filetype not supported") :=
  ⟨rfl,
   (C3_unsupported_error (fun _ => FileContent.other "noise") none none "x.bin" "d" "f").2
     "noise" rfl⟩

/-- C4: the zip, gzip, bzip2 and lzma extractors each declare exactly one
parameter while the dispatcher calls every extractor with three arguments,
so every attempt at one of those four raises an arity `TypeError` that the
dispatcher swallows; consequently `extract_data_files` succeeds exactly
when the three-argument call of `tar_extractor` on the input completes
without error. -/
theorem C4_only_tar_can_succeed (world : String → FileContent) (ft fe : Option String)
    (p d f : String) :
    numParams Extractor.tar = 3
  ∧ (∀ e, e ≠ Extractor.tar →
      numParams e = 1 ∧ callWith3 world e p d f = ([], some .typeError))
  ∧ ((extract_data_files world ft fe p d f).error = none
      ↔ (callWith3 world Extractor.tar p d f).2 = none) := by
  refine ⟨rfl, ?_, ?_, ?_⟩
  · intro e he
    refine ⟨?_, call_stub world e p d f he⟩
    cases e <;> simp_all [numParams]
  · intro herr
    cases htc : (callWith3 world Extractor.tar p d f).2 with
    | none => rfl
    | some er =>
        rw [extract_error_of_tar_fail world ft fe p d f er htc] at herr
        exact absurd herr (by simp)
  · intro hc
    exact extract_error_none_of_tar_ok world ft fe p d f hc

/-- Witness for C4 at a concrete input: the zip stub's three-argument call
is an arity error, and on a readable tar archive the dispatcher succeeds
exactly because the tar call does. -/
theorem C4_only_tar_can_succeed_witness :
    numParams Extractor.zip = 1
  ∧ callWith3 (fun _ => FileContent.tarData []) Extractor.zip "a" "d" "f"
      = ([], some Err.typeError)
  ∧ ((extract_data_files (fun _ => FileContent.tarData []) none none "a" "d" "f").error = none
      ↔ (callWith3 (fun _ => FileContent.tarData []) Extractor.tar "a" "d" "f").2 = none) :=
  ⟨((C4_only_tar_can_succeed (fun _ => FileContent.tarData []) none none "a" "d" "f").2.1
      Extractor.zip (by decide)).1,
   ((C4_only_tar_can_succeed (fun _ => FileContent.tarData []) none none "a" "d" "f").2.1
      Extractor.zip (by decide)).2,
   (C4_only_tar_can_succeed (fun _ => FileContent.tarData []) none none "a" "d" "f").2.2⟩

/-- C5: no error raised by an individual extractor attempt — neither a
`tarfile.ReadError` nor an arity `TypeError`, during the hinted attempt or
the fallback sweep — is ever surfaced by `extract_data_files`: its outcome
is never an `extractorError`. -/
theorem C5_extractor_errors_swallowed (world : String → FileContent) (ft fe : Option String)
    (p d f : String) :
    ∀ err, (extract_data_files world ft fe p d f).error
      ≠ some (DispatchError.extractorError err) := by
  intro err h
  rcases error_none_or_unsupported world ft fe p d f with h2 | h2 <;> rw [h2] at h <;> simp at h

/-- Witness for C5 at a concrete input: on an undecodable file, whose tar
attempt raises a read error and whose stub attempts raise arity errors,
the dispatcher still surfaces no extractor error. -/
theorem C5_extractor_errors_swallowed_witness :
    (extract_data_files (fun _ => FileContent.other "z") none none "q" "d" "f").error
      ≠ some (DispatchError.extractorError Err.typeError) :=
  C5_extractor_errors_swallowed (fun _ => FileContent.other "z") none none "q" "d" "f"
    Err.typeError

theorem writesOf_append (a b : List Event) :
    writesOf (a ++ b) = writesOf a ++ writesOf b := by
  simp [writesOf]

theorem writes_call_other (world : String → FileContent) (p d f : String)
    (c : String) (hw : world p = .other c) (e : Extractor) :
    writesOf (callWith3 world e p d f).1 = [] := by
  cases e with
  | tar => rw [call_tar_other world p d f c hw]; rfl
  | zip => rfl
  | gzip => rfl
  | bzip2 => rfl
  | lzma => rfl

theorem writes_call_stub (world : String → FileContent) (p d f : String)
    (e : Extractor) (he : e ≠ Extractor.tar) :
    writesOf (callWith3 world e p d f).1 = [] := by
  rw [call_stub world e p d f he]
  rfl

/-- C6 counterexample: a readable archive with the regular file `a`
followed by `a/b` makes `tar.extractall` fail after the manifest write
(the OS refuses to use the regular file `a` as a directory); every
extractor then fails and the dispatch ends in the unsupported-format
error — yet the manifest has been written and the target directory
partially populated by that failing call. -/
theorem C6_counterexample :
    (extract_data_files
        (fun _ => FileContent.tarData [TarMember.mk "a" 0 true 3, TarMember.mk "a/b" 0 true 4])
        none none "t.tar" "d" "mf").error
      = some (.unsupported "Filetype not supported")
  ∧ Event.writeManifest "mf" [("a", Entry.mk 0 (some 3)), ("a/b", Entry.mk 0 (some 4))]
      ∈ (extract_data_files
          (fun _ => FileContent.tarData [TarMember.mk "a" 0 true 3, TarMember.mk "a/b" 0 true 4])
          none none "t.tar" "d" "mf").events
  ∧ Event.extractAll "d" [TarMember.mk "a" 0 true 3]
      ∈ (extract_data_files
          (fun _ => FileContent.tarData [TarMember.mk "a" 0 true 3, TarMember.mk "a/b" 0 true 4])
          none none "t.tar" "d" "mf").events := by
  decide

/-- C6 amended: write effects come only from tar attempts — the stub
extractors never write — and within a tar attempt the manifest write
precedes the extraction of the members, which may fail midway and leave
the manifest and a partially populated target directory behind. When the
source file is not readable as a tar archive so that every attempt fails
at the open step, a failing `extract_data_files` call performs no write
at all; and when `extract_data_files` succeeds, every write in its trace
comes from the final, successful attempt. -/
theorem C6_write_effects (world : String → FileContent) (ft fe : Option String)
    (p d f : String) :
    (∀ cause, world p = .other cause →
      writesOf (extract_data_files world ft fe p d f).events = [])
  ∧ ((extract_data_files world ft fe p d f).error = none →
      ∃ ex, (extract_data_files world ft fe p d f).attempts.getLast? = some ex
        ∧ (callWith3 world ex p d f).2 = none
        ∧ writesOf (extract_data_files world ft fe p d f).events
            = writesOf (callWith3 world ex p d f).1)
  ∧ (∀ e, e ≠ Extractor.tar → writesOf (callWith3 world e p d f).1 = [])
  ∧ (∀ ms, world p = .tarData ms →
      (callWith3 world Extractor.tar p d f).1
        = [.print "1: tar", .writeManifest f (buildManifest ms),
           .extractAll d (tarExtract ms).1]) := by
  refine ⟨?_, ?_, ?_, ?_⟩
  · intro cause hw
    have her0 : (callWith3 world .tar p d f).2
        = some (.readError ("Failed to unarchive \"" ++ p ++ "\"\ncaused by:\n" ++ cause)) := by
      rw [call_tar_other world p d f cause hw]
    cases hk : anyKey ft fe with
    | false =>
        rw [extract_of_no_key world ft fe p d f hk, sweep_reg_of_tar_fail world p d f _ her0]
        show writesOf (callWith3 world .tar p d f).1 = []
        exact writes_call_other world p d f cause hw .tar
    | true =>
        obtain ⟨ex, hex⟩ := hinted_of_anyKey ft fe hk
        obtain ⟨er2, hc⟩ := call_fails_of_tar_fail world p d f _ her0 ex
        rw [extract_of_hint_failure world ft fe p d f ex er2 hex hc]
        show writesOf ((callWith3 world ex p d f).1
          ++ (sweep world p d f registryValues).events) = []
        rw [writesOf_append, writes_call_other world p d f cause hw ex,
          sweep_reg_of_tar_fail world p d f _ her0]
        show [] ++ writesOf (callWith3 world .tar p d f).1 = []
        rw [writes_call_other world p d f cause hw .tar]
        rfl
  · intro hnone
    cases htc : (callWith3 world .tar p d f).2 with
    | some er =>
        rw [extract_error_of_tar_fail world ft fe p d f er htc] at hnone
        simp at hnone
    | none =>
        cases hk : anyKey ft fe with
        | false =>
            rw [extract_of_no_key world ft fe p d f hk, sweep_reg_of_tar_ok world p d f htc]
            exact ⟨.tar, rfl, htc, rfl⟩
        | true =>
            obtain ⟨ex, hex⟩ := hinted_of_anyKey ft fe hk
            cases hc : (callWith3 world ex p d f).2 with
            | none =>
                rw [extract_of_hint_success world ft fe p d f ex hex hc]
                exact ⟨ex, rfl, hc, rfl⟩
            | some er =>
                have hexne : ex ≠ Extractor.tar := by
                  intro hcontra
                  rw [hcontra, htc] at hc
                  exact Option.noConfusion hc
                rw [extract_of_hint_failure world ft fe p d f ex er hex hc]
                refine ⟨.tar, ?_, htc, ?_⟩
                · show (ex :: (sweep world p d f registryValues).attempts).getLast?
                    = some Extractor.tar
                  rw [sweep_attempts_ok world p d f htc]
                  rfl
                · show writesOf ((callWith3 world ex p d f).1
                    ++ (sweep world p d f registryValues).events)
                    = writesOf (callWith3 world Extractor.tar p d f).1
                  rw [writesOf_append, writes_call_stub world p d f ex hexne,
                    sweep_reg_of_tar_ok world p d f htc]
                  rfl
  · intro e he
    exact writes_call_stub world p d f e he
  · intro ms hw
    rw [call_tar_tarData world p d f ms hw]

/-- Witness for C6 (amended) at a concrete input: an unreadable file makes
every attempt fail at the open step and the failing dispatch performs no
write. -/
theorem C6_write_effects_witness :
    ((fun (_ : String) => FileContent.other "bad") "q" = FileContent.other "bad")
  ∧ writesOf (extract_data_files (fun _ => FileContent.other "bad") none none "q" "d" "f").events
      = [] :=
  ⟨rfl,
   (C6_write_effects (fun _ => FileContent.other "bad") none none "q" "d" "f").1 "bad" rfl⟩

theorem buildManifest_aux (ms : List TarMember) : ∀ acc : List (String × Entry),
    (∀ m ∈ ms, ∀ q ∈ acc, q.1 ≠ m.name) →
    (ms.map TarMember.name).Nodup →
    ms.foldl (fun a m => dictInsert a m.name (mkEntry m)) acc
      = acc ++ ms.map (fun m => (m.name, mkEntry m)) := by
  induction ms with
  | nil => intro acc _ _; simp
  | cons m rest ih =>
      intro acc hdisj hnd
      have hnotin : (acc.any (fun q => q.1 == m.name)) = false := by
        rw [List.any_eq_false]
        intro q hq
        simp only [beq_iff_eq]
        exact hdisj m (List.mem_cons_self m rest) q hq
      rw [List.map_cons, List.nodup_cons] at hnd
      have hstep : dictInsert acc m.name (mkEntry m) = acc ++ [(m.name, mkEntry m)] := by
        simp [dictInsert, hnotin]
      rw [List.foldl_cons, hstep,
        ih (acc ++ [(m.name, mkEntry m)]) ?_ hnd.2]
      · simp
      · intro m' hm' q hq
        rcases List.mem_append.mp hq with hq1 | hq1
        · exact hdisj m' (List.mem_cons_of_mem m hm') q hq1
        · have hq2 : q = (m.name, mkEntry m) := List.mem_singleton.mp hq1
          rw [hq2]
          intro hcontra
          have hc2 : m.name = m'.name := hcontra
          apply hnd.1
          rw [hc2]
          exact List.mem_map_of_mem TarMember.name hm'

theorem buildManifest_of_nodup (ms : List TarMember)
    (hnd : (ms.map TarMember.name).Nodup) :
    buildManifest ms = ms.map (fun m => (m.name, mkEntry m)) := by
  have h := buildManifest_aux ms [] (by intro m _ q hq; simp at hq) hnd
  simpa [buildManifest] using h

/-- C7 counterexample: a readable tar archive can contain two members with
the same path (for example after `tar --append`); the Python dict keyed by
member name then collapses them, so the manifest written for this
two-member archive has a single entry — not exactly one entry per archive
member — and its metadata is that of the last same-named member. -/
theorem C7_counterexample :
    buildManifest [TarMember.mk "a" 0 true 1, TarMember.mk "a" 0 true 2]
      = [("a", Entry.mk 0 (some 2))]
  ∧ (buildManifest [TarMember.mk "a" 0 true 1, TarMember.mk "a" 0 true 2]).length = 1
  ∧ [TarMember.mk "a" 0 true 1, TarMember.mk "a" 0 true 2].length = 2
  ∧ callWith3
      (fun _ => FileContent.tarData [TarMember.mk "a" 0 true 1, TarMember.mk "a" 0 true 2])
      .tar "t.tar" "d" "mf"
      = ([.print "1: tar",
          .writeManifest "mf" [("a", Entry.mk 0 (some 2))],
          .extractAll "d" [TarMember.mk "a" 0 true 1, TarMember.mk "a" 0 true 2]], none) := by
  decide

/-- C7 amended: for every readable tar archive whose member paths are
pairwise distinct, the manifest written by the tar extractor contains
exactly one entry per archive member, keyed by the member's path, in the
archive's internal member order; each entry records the member's entry
type as an integer and records a size exactly when the member is a
regular file. (With duplicate member paths the entries collapse to one
per distinct path, keeping the first occurrence's position and the last
occurrence's metadata.) -/
theorem C7_manifest_per_member (world : String → FileContent) (p d f : String)
    (ms : List TarMember) (hw : world p = .tarData ms)
    (hnd : (ms.map TarMember.name).Nodup) :
    callWith3 world .tar p d f
      = ([.print "1: tar",
          .writeManifest f (ms.map (fun m =>
            (m.name, Entry.mk m.typeCode (if m.isReg then some m.size else none)))),
          .extractAll d (tarExtract ms).1], (tarExtract ms).2) := by
  rw [call_tar_tarData world p d f ms hw, buildManifest_of_nodup ms hnd]
  rfl

/-- Witness for C7 (amended) at a concrete archive: a directory member and
a regular-file member with distinct names; the directory entry has no
size, the regular file records its size, and order is preserved. -/
theorem C7_manifest_per_member_witness :
    ((fun _ => FileContent.tarData [TarMember.mk "sub" 5 false 0, TarMember.mk "b.txt" 0 true 7])
        "t.tar"
      = FileContent.tarData [TarMember.mk "sub" 5 false 0, TarMember.mk "b.txt" 0 true 7])
  ∧ ([TarMember.mk "sub" 5 false 0, TarMember.mk "b.txt" 0 true 7].map TarMember.name).Nodup
  ∧ callWith3
      (fun _ => FileContent.tarData [TarMember.mk "sub" 5 false 0, TarMember.mk "b.txt" 0 true 7])
      .tar "t.tar" "d" "mf"
      = ([.print "1: tar",
          .writeManifest "mf" [("sub", Entry.mk 5 none), ("b.txt", Entry.mk 0 (some 7))],
          .extractAll "d" [TarMember.mk "sub" 5 false 0, TarMember.mk "b.txt" 0 true 7]],
         none) :=
  ⟨rfl, by decide,
   (C7_manifest_per_member
      (fun _ => FileContent.tarData [TarMember.mk "sub" 5 false 0, TarMember.mk "b.txt" 0 true 7])
      "t.tar" "d" "mf" [TarMember.mk "sub" 5 false 0, TarMember.mk "b.txt" 0 true 7]
      rfl (by decide)).trans (by decide)⟩

/-- C8: for every path whose content is not readable as a tar archive,
`tar_extractor` fails at the open step with a `tarfile.ReadError` whose
message embeds both the source path and the underlying cause, and it does
so before writing any manifest or extracting any file: its trace holds
only the initial print. -/
theorem C8_tar_read_error (world : String → FileContent) (p d f : String)
    (cause : String) (hw : world p = .other cause) :
    callWith3 world .tar p d f
      = ([.print "1: tar"],
         some (Err.readError
           ("Failed to unarchive \"" ++ p ++ "\"\ncaused by:\n" ++ cause)))
  ∧ writesOf (callWith3 world .tar p d f).1 = [] := by
  refine ⟨call_tar_other world p d f cause hw, ?_⟩
  rw [call_tar_other world p d f cause hw]
  rfl

/-- Witness for C8 at a concrete input: an unreadable file yields the
wrapped read error with the path and the cause in its message, and no
write happened. -/
theorem C8_tar_read_error_witness :
    ((fun (_ : String) => FileContent.other "boom") "a.tar" = FileContent.other "boom")
  ∧ callWith3 (fun _ => FileContent.other "boom") .tar "a.tar" "d" "f"
      = ([.print "1: tar"],
         some (Err.readError "Failed to unarchive \"a.tar\"\ncaused by:\nboom")) :=
  ⟨rfl,
   ((C8_tar_read_error (fun _ => FileContent.other "boom") "a.tar" "d" "f" "boom" rfl).1).trans
     (by decide)⟩

/-- C9 counterexample: a file with a recognized tar type hint but
unreadable content makes the hinted tar attempt fail, and the fallback
sweep then invokes `tar_extractor` again — the same extractor is attempted
twice in one `extract_data_files` call. -/
theorem C9_counterexample :
    (extract_data_files (fun _ => FileContent.other "bad") (some "application/x-tar") none
        "x.tar" "d" "f").attempts
      = [Extractor.tar, Extractor.tar, Extractor.zip, Extractor.gzip,
         Extractor.bzip2, Extractor.lzma]
  ∧ (extract_data_files (fun _ => FileContent.other "bad") (some "application/x-tar") none
        "x.tar" "d" "f").attempts.count Extractor.tar = 2 := by
  decide

/-- C9 amended: within the fallback sweep itself no extractor is attempted
more than once (the post-hint attempts are duplicate-free), but the hinted
extractor that failed is not excluded from the sweep: whenever the hinted
attempt fails and the dispatch ultimately fails, the hinted extractor is
invoked exactly twice; no extractor is ever attempted more than twice per
call. -/
theorem C9_attempt_counts (world : String → FileContent) (ft fe : Option String)
    (p d f : String) :
    ((extract_data_files world ft fe p d f).attempts.drop 1).Nodup
  ∧ (∀ e, (extract_data_files world ft fe p d f).attempts.count e ≤ 2)
  ∧ (∀ ex er, hintedExtractor ft fe = some ex →
      (callWith3 world ex p d f).2 = some er →
      (extract_data_files world ft fe p d f).error.isSome = true →
      (extract_data_files world ft fe p d f).attempts.count ex = 2) := by
  refine ⟨?_, ?_, ?_⟩
  · cases hk : anyKey ft fe with
    | false =>
        rw [extract_of_no_key world ft fe p d f hk]
        cases htc : (callWith3 world .tar p d f).2 with
        | none => rw [sweep_attempts_ok world p d f htc]; decide
        | some er => rw [sweep_attempts_fail world p d f er htc]; decide
    | true =>
        obtain ⟨ex, hex⟩ := hinted_of_anyKey ft fe hk
        cases hc : (callWith3 world ex p d f).2 with
        | none =>
            rw [extract_of_hint_success world ft fe p d f ex hex hc]
            simp
        | some er =>
            rw [extract_of_hint_failure world ft fe p d f ex er hex hc]
            show ((ex :: (sweep world p d f registryValues).attempts).drop 1).Nodup
            cases htc : (callWith3 world .tar p d f).2 with
            | none =>
                rw [sweep_attempts_ok world p d f htc]
                exact (by decide : ([Extractor.tar] : List Extractor).Nodup)
            | some er2 =>
                rw [sweep_attempts_fail world p d f er2 htc]
                exact (by decide : ([Extractor.tar, Extractor.zip, Extractor.gzip,
                  Extractor.bzip2, Extractor.lzma] : List Extractor).Nodup)
  · intro e
    cases hk : anyKey ft fe with
    | false =>
        rw [extract_of_no_key world ft fe p d f hk]
        cases htc : (callWith3 world .tar p d f).2 with
        | none =>
            rw [sweep_attempts_ok world p d f htc]
            cases e <;> decide
        | some er =>
            rw [sweep_attempts_fail world p d f er htc]
            cases e <;> decide
    | true =>
        obtain ⟨ex, hex⟩ := hinted_of_anyKey ft fe hk
        cases hc : (callWith3 world ex p d f).2 with
        | none =>
            rw [extract_of_hint_success world ft fe p d f ex hex hc]
            show List.count e [ex] ≤ 2
            cases ex <;> cases e <;> decide
        | some er =>
            rw [extract_of_hint_failure world ft fe p d f ex er hex hc]
            show List.count e (ex :: (sweep world p d f registryValues).attempts) ≤ 2
            cases htc : (callWith3 world .tar p d f).2 with
            | none =>
                rw [sweep_attempts_ok world p d f htc]
                cases ex <;> cases e <;> decide
            | some er2 =>
                rw [sweep_attempts_fail world p d f er2 htc]
                cases ex <;> cases e <;> decide
  · intro ex er hex hc hsome
    cases htc : (callWith3 world .tar p d f).2 with
    | none =>
        rw [extract_error_none_of_tar_ok world ft fe p d f htc] at hsome
        simp at hsome
    | some er3 =>
        rw [extract_of_hint_failure world ft fe p d f ex er hex hc]
        show List.count ex (ex :: (sweep world p d f registryValues).attempts) = 2
        rw [sweep_attempts_fail world p d f er3 htc]
        cases ex <;> decide

/-- Witness for C9 (amended) at a concrete input: a failed tar hint on an
unreadable file gives a duplicate-free sweep, a count cap of two, and
exactly two tar attempts. -/
theorem C9_attempt_counts_witness :
    ((extract_data_files (fun _ => FileContent.other "bad") (some "application/x-tar") none
        "x.tar" "d" "f").attempts.drop 1).Nodup
  ∧ (extract_data_files (fun _ => FileContent.other "bad") (some "application/x-tar") none
        "x.tar" "d" "f").attempts.count Extractor.lzma ≤ 2
  ∧ (extract_data_files (fun _ => FileContent.other "bad") (some "application/x-tar") none
        "x.tar" "d" "f").attempts.count Extractor.tar = 2 :=
  ⟨(C9_attempt_counts (fun _ => FileContent.other "bad") (some "application/x-tar") none
      "x.tar" "d" "f").1,
   (C9_attempt_counts (fun _ => FileContent.other "bad") (some "application/x-tar") none
      "x.tar" "d" "f").2.1 Extractor.lzma,
   (C9_attempt_counts (fun _ => FileContent.other "bad") (some "application/x-tar") none
      "x.tar" "d" "f").2.2 Extractor.tar
      (Err.readError "Failed to unarchive \"x.tar\"\ncaused by:\nbad")
      (by decide) (by decide) (by decide)⟩

theorem manifestsOf_append (a b : List Event) :
    manifestsOf (a ++ b) = manifestsOf a ++ manifestsOf b := by
  simp [manifestsOf]

theorem call_snd_indep (world : String → FileContent) (e : Extractor) (p d1 f1 d2 f2 : String) :
    (callWith3 world e p d1 f1).2 = (callWith3 world e p d2 f2).2 := by
  cases e <;> cases hw : world p <;> simp [callWith3, tarBody, hw]

theorem call_manifests_indep (world : String → FileContent) (e : Extractor)
    (p d1 f1 d2 f2 : String) :
    manifestsOf (callWith3 world e p d1 f1).1 = manifestsOf (callWith3 world e p d2 f2).1 := by
  cases e <;> cases hw : world p <;> simp [callWith3, tarBody, hw, manifestsOf]

/-- C10: re-running `extract_data_files` on the same archive (same world
content at the same source path, same type hint) into a fresh target
directory with a fresh manifest path is deterministic: the manifest
payloads written, the outcome, and the sequence of attempted extractors
are identical across the two runs. -/
theorem C10_deterministic_manifest (world : String → FileContent) (ft fe : Option String)
    (p d1 f1 d2 f2 : String) :
    manifestsOf (extract_data_files world ft fe p d1 f1).events
      = manifestsOf (extract_data_files world ft fe p d2 f2).events
  ∧ (extract_data_files world ft fe p d1 f1).error
      = (extract_data_files world ft fe p d2 f2).error
  ∧ (extract_data_files world ft fe p d1 f1).attempts
      = (extract_data_files world ft fe p d2 f2).attempts := by
  have hsnd := call_snd_indep world .tar p d1 f1 d2 f2
  cases hk : anyKey ft fe with
  | false =>
      rw [extract_of_no_key world ft fe p d1 f1 hk, extract_of_no_key world ft fe p d2 f2 hk]
      cases htc : (callWith3 world .tar p d1 f1).2 with
      | none =>
          have htc2 : (callWith3 world .tar p d2 f2).2 = none := by
            rw [← hsnd]; exact htc
          rw [sweep_reg_of_tar_ok world p d1 f1 htc, sweep_reg_of_tar_ok world p d2 f2 htc2]
          exact ⟨call_manifests_indep world .tar p d1 f1 d2 f2, rfl, rfl⟩
      | some er =>
          have htc2 : (callWith3 world .tar p d2 f2).2 = some er := by
            rw [← hsnd]; exact htc
          rw [sweep_reg_of_tar_fail world p d1 f1 er htc,
            sweep_reg_of_tar_fail world p d2 f2 er htc2]
          exact ⟨call_manifests_indep world .tar p d1 f1 d2 f2, rfl, rfl⟩
  | true =>
      obtain ⟨ex, hex⟩ := hinted_of_anyKey ft fe hk
      cases hc : (callWith3 world ex p d1 f1).2 with
      | none =>
          have hc2 : (callWith3 world ex p d2 f2).2 = none := by
            rw [← call_snd_indep world ex p d1 f1 d2 f2]
            exact hc
          rw [extract_of_hint_success world ft fe p d1 f1 ex hex hc,
            extract_of_hint_success world ft fe p d2 f2 ex hex hc2]
          exact ⟨call_manifests_indep world ex p d1 f1 d2 f2, rfl, rfl⟩
      | some er =>
          have hc2 : (callWith3 world ex p d2 f2).2 = some er := by
            rw [← call_snd_indep world ex p d1 f1 d2 f2]
            exact hc
          rw [extract_of_hint_failure world ft fe p d1 f1 ex er hex hc,
            extract_of_hint_failure world ft fe p d2 f2 ex er hex hc2]
          refine ⟨?_, ?_, ?_⟩
          · show manifestsOf ((callWith3 world ex p d1 f1).1
                ++ (sweep world p d1 f1 registryValues).events)
              = manifestsOf ((callWith3 world ex p d2 f2).1
                ++ (sweep world p d2 f2 registryValues).events)
            rw [manifestsOf_append, manifestsOf_append,
              call_manifests_indep world ex p d1 f1 d2 f2]
            cases htc : (callWith3 world .tar p d1 f1).2 with
            | none =>
                have htc2 : (callWith3 world .tar p d2 f2).2 = none := by
                  rw [← hsnd]; exact htc
                rw [sweep_events_ok world p d1 f1 htc, sweep_events_ok world p d2 f2 htc2,
                  call_manifests_indep world .tar p d1 f1 d2 f2]
            | some er2 =>
                have htc2 : (callWith3 world .tar p d2 f2).2 = some er2 := by
                  rw [← hsnd]; exact htc
                rw [sweep_events_fail world p d1 f1 er2 htc,
                  sweep_events_fail world p d2 f2 er2 htc2,
                  call_manifests_indep world .tar p d1 f1 d2 f2]
          · show (sweep world p d1 f1 registryValues).error
              = (sweep world p d2 f2 registryValues).error
            cases htc : (callWith3 world .tar p d1 f1).2 with
            | none =>
                have htc2 : (callWith3 world .tar p d2 f2).2 = none := by
                  rw [← hsnd]; exact htc
                rw [sweep_error_ok world p d1 f1 htc, sweep_error_ok world p d2 f2 htc2]
            | some er2 =>
                have htc2 : (callWith3 world .tar p d2 f2).2 = some er2 := by
                  rw [← hsnd]; exact htc
                rw [sweep_error_fail world p d1 f1 er2 htc,
                  sweep_error_fail world p d2 f2 er2 htc2]
          · show ex :: (sweep world p d1 f1 registryValues).attempts
              = ex :: (sweep world p d2 f2 registryValues).attempts
            cases htc : (callWith3 world .tar p d1 f1).2 with
            | none =>
                have htc2 : (callWith3 world .tar p d2 f2).2 = none := by
                  rw [← hsnd]; exact htc
                rw [sweep_attempts_ok world p d1 f1 htc, sweep_attempts_ok world p d2 f2 htc2]
            | some er2 =>
                have htc2 : (callWith3 world .tar p d2 f2).2 = some er2 := by
                  rw [← hsnd]; exact htc
                rw [sweep_attempts_fail world p d1 f1 er2 htc,
                  sweep_attempts_fail world p d2 f2 er2 htc2]

end Pydax
